import Mathlib

/-!
Verification development for the wedding shuttle optimizer.

The Python sources `solver.py` and `main.py` are shallowly embedded below.
`solve_pickups_multitrip` builds a CP-SAT model and queries an external
solver; the solver is embedded as an oracle (`SolverOutcome`) whose
successful answers are value assignments (`Valuation`) to the model's
decision variables.  The predicate `SatisfiesModel` is the clause-by-clause
translation of every constraint (and variable domain) the Python code posts
on the CP model, so the CP-SAT contract "a returned assignment satisfies the
model" becomes the hypothesis `SatisfiesModel guests params v`.
-/

namespace WeddingShuttle

/-- `Guest` dataclass of `solver.py`. -/
structure Guest where
  guest_id : String
  name : String
  arrival_min : Int
deriving DecidableEq

/-- The `must_ride_together_in_vehicle` rule: the dict read at
`together_rule["guest_id_a"]`, `["guest_id_b"]`, `["vehicle_index"]`. -/
structure TogetherRule where
  guest_id_a : String
  guest_id_b : String
  vehicle_index : Int
deriving DecidableEq

/-- `SolveParams` dataclass of `solver.py`. -/
structure SolveParams where
  num_cars : Nat
  capacity_per_car : Int
  max_wait_min : Int
  time_horizon_min : Option Int := none
  round_trip_min : Int := 240
  vehicle_capacities : Option (List Int) := none
  incompatible_pairs : Option (List (String × String)) := none
  must_ride_together_in_vehicle : Option TogetherRule := none

def defaultGuest : Guest := ⟨"", "", 0⟩

/-- Arrival time of guest `i` (`guests[i].arrival_min`). -/
def arrv (guests : List Guest) (i : Nat) : Int :=
  (guests.getD i defaultGuest).arrival_min

/-- Python's `min` of a list of ints, as an option-valued fold. -/
def pyMinAux (l : List Int) : Option Int :=
  l.foldr (fun a acc => match acc with | none => some a | some b => some (min a b)) none

/-- Python's `max` of a list of ints, as an option-valued fold. -/
def pyMaxAux (l : List Int) : Option Int :=
  l.foldr (fun a acc => match acc with | none => some a | some b => some (max a b)) none

/-- `min_a = min(arrivals)` (only used on non-empty guest lists). -/
def minA (guests : List Guest) : Int :=
  (pyMinAux (guests.map (fun g => g.arrival_min))).getD 0

/-- `max_a = max(arrivals)` (only used on non-empty guest lists). -/
def maxA (guests : List Guest) : Int :=
  (pyMaxAux (guests.map (fun g => g.arrival_min))).getD 0

/-- `horizon = time_horizon_min` if supplied, else `max_a + W + RT`. -/
def horizonOf (guests : List Guest) (params : SolveParams) : Int :=
  match params.time_horizon_min with
  | some h => h
  | none => maxA guests + params.max_wait_min + params.round_trip_min

/-- `BIG_POS = horizon + 10_000`. -/
def bigPos (guests : List Guest) (params : SolveParams) : Int :=
  horizonOf guests params + 10000

/-- `BIG_NEG = -10_000`. -/
def bigNeg : Int := -10000

/-- `id_to_i = {g.guest_id: i for i, g in enumerate(guests)}`: a Python dict
comprehension keeps the last index for a repeated key. -/
def id_to_i (guests : List Guest) (gid : String) : Option Nat :=
  ((List.range guests.length).filter
    (fun i => (guests.getD i defaultGuest).guest_id == gid)).getLast?

/-- Capacity normalization of `solve_pickups_multitrip` (lines 46-57):
default to `capacity_per_car * K` when absent, pad when too short,
truncate when too long. -/
def normCaps (params : SolveParams) : List Int :=
  let K := params.num_cars
  let caps := match params.vehicle_capacities with
    | none => List.replicate K params.capacity_per_car
    | some cs => cs
  if caps.length < K then caps ++ List.replicate (K - caps.length) params.capacity_per_car
  else caps.take K

/-- `incompatible_pairs = getattr(params, "incompatible_pairs", []) or []`. -/
def pairsOf (params : SolveParams) : List (String × String) :=
  (params.incompatible_pairs).getD []

/-- Boolean CP variable value as the integer CP-SAT uses in linear terms. -/
def b2i (b : Bool) : Int := if b then 1 else 0

/-- A value assignment to every decision variable the Python code creates on
the CP model (`x`, `used`, `dep`, `min_arr`, `max_arr`, `z`, the masked
`vmin`/`vmax`, the `dummy_min`/`dummy_max` pins, the per-vehicle interval
ends `end_mk`, and the objective variables `dep_guest`, `wait`,
`total_wait`). -/
structure Valuation where
  x : Nat → Nat → Bool
  used : Nat → Bool
  dep : Nat → Int
  minArr : Nat → Int
  maxArr : Nat → Int
  z : Nat → Nat → Bool
  vmin : Nat → Nat → Int
  vmax : Nat → Nat → Int
  dummyMin : Nat → Int
  dummyMax : Nat → Int
  endv : Nat → Nat → Int
  depGuest : Nat → Int
  wait : Nat → Int
  totalWait : Int

/-- `trip_load = sum(x[i][m] for i in range(n))`. -/
def loadOf (guests : List Guest) (v : Valuation) (m : Nat) : Int :=
  ((List.range guests.length).map (fun i => b2i (v.x i m))).sum

/-- The argument list of `AddMinEquality(min_arr[m], masked_for_min)`:
all `vmin[i][m]` followed by `dummy_min[m]`, folded with `min`. -/
def maskedMin (guests : List Guest) (v : Valuation) (m : Nat) : Int :=
  ((List.range guests.length).map (fun i => v.vmin i m)).foldr min (v.dummyMin m)

/-- The argument list of `AddMaxEquality(max_arr[m], masked_for_max)`. -/
def maskedMax (guests : List Guest) (v : Valuation) (m : Nat) : Int :=
  ((List.range guests.length).map (fun i => v.vmax i m)).foldr max (v.dummyMax m)

/-- Clause-by-clause translation of the CP model posted by
`solve_pickups_multitrip` on a non-empty guest list: the declared variable
domains and the constraints (1)-(6) of `solver.py`.  `M = n = guests.length`
trip slots, `K = params.num_cars` vehicles. -/
structure SatisfiesModel (guests : List Guest) (params : SolveParams) (v : Valuation) : Prop where
  -- variable domains
  depDom : ∀ m < guests.length,
    minA guests ≤ v.dep m ∧ v.dep m ≤ horizonOf guests params
  minArrDom : ∀ m < guests.length,
    minA guests ≤ v.minArr m ∧ v.minArr m ≤ bigPos guests params
  maxArrDom : ∀ m < guests.length,
    bigNeg ≤ v.maxArr m ∧ v.maxArr m ≤ maxA guests
  vminDom : ∀ m < guests.length, ∀ i < guests.length,
    minA guests ≤ v.vmin i m ∧ v.vmin i m ≤ bigPos guests params
  vmaxDom : ∀ m < guests.length, ∀ i < guests.length,
    bigNeg ≤ v.vmax i m ∧ v.vmax i m ≤ maxA guests
  dummyMinDom : ∀ m < guests.length,
    minA guests ≤ v.dummyMin m ∧ v.dummyMin m ≤ bigPos guests params
  dummyMaxDom : ∀ m < guests.length,
    bigNeg ≤ v.dummyMax m ∧ v.dummyMax m ≤ maxA guests
  endDom : ∀ m < guests.length, ∀ k < params.num_cars,
    minA guests ≤ v.endv m k ∧ v.endv m k ≤ horizonOf guests params + params.round_trip_min
  depGuestDom : ∀ i < guests.length,
    minA guests ≤ v.depGuest i ∧ v.depGuest i ≤ horizonOf guests params
  waitDom : ∀ i < guests.length,
    0 ≤ v.wait i ∧ v.wait i ≤ horizonOf guests params - minA guests
  totalWaitDom : 0 ≤ v.totalWait ∧ v.totalWait ≤ 10000000
  -- (1) each guest assigned to exactly one trip
  partition : ∀ i < guests.length,
    ((List.range guests.length).map (fun m => b2i (v.x i m))).sum = 1
  -- (2) trip constraints
  usedImp : ∀ m < guests.length, ∀ i < guests.length,
    v.x i m = true → v.used m = true
  loadGe : ∀ m < guests.length, v.used m = true → 1 ≤ loadOf guests v m
  loadEq0 : ∀ m < guests.length, v.used m = false → loadOf guests v m = 0
  zSum : ∀ m < guests.length,
    ((List.range params.num_cars).map (fun k => b2i (v.z m k))).sum = b2i (v.used m)
  capacity : ∀ m < guests.length,
    loadOf guests v m ≤
      ((List.range params.num_cars).map
        (fun k => (normCaps params).getD k 0 * b2i (v.z m k))).sum
  vminLink : ∀ m < guests.length, ∀ i < guests.length,
    (v.x i m = true → v.vmin i m = arrv guests i) ∧
    (v.x i m = false → v.vmin i m = bigPos guests params)
  vmaxLink : ∀ m < guests.length, ∀ i < guests.length,
    (v.x i m = true → v.vmax i m = arrv guests i) ∧
    (v.x i m = false → v.vmax i m = bigNeg)
  dummyLink : ∀ m < guests.length,
    (v.used m = false → v.dummyMin m = minA guests ∧ v.dummyMax m = minA guests) ∧
    (v.used m = true → v.dummyMin m = bigPos guests params ∧ v.dummyMax m = bigNeg)
  minArrEq : ∀ m < guests.length, v.minArr m = maskedMin guests v m
  maxArrEq : ∀ m < guests.length, v.maxArr m = maskedMax guests v m
  depEq : ∀ m < guests.length, v.dep m = v.maxArr m
  waitSpread : ∀ m < guests.length, v.used m = true →
    v.maxArr m - v.minArr m ≤ params.max_wait_min
  -- (3) incompatibility: posted only when both ids resolve
  incompat : ∀ p ∈ pairsOf params, ∀ i1 i2,
    id_to_i guests p.1 = some i1 → id_to_i guests p.2 = some i2 →
    ∀ m < guests.length, b2i (v.x i1 m) + b2i (v.x i2 m) ≤ 1
  -- (4) must-ride-together rule
  together : ∀ r, params.must_ride_together_in_vehicle = some r →
    ∀ ia ib, id_to_i guests r.guest_id_a = some ia →
      id_to_i guests r.guest_id_b = some ib →
      ∀ m < guests.length,
        v.x ia m = v.x ib m ∧
        (v.x ia m = true → v.z m r.vehicle_index.toNat = true)
  -- (5) vehicle scheduling: optional intervals plus NoOverlap per vehicle
  endLink : ∀ m < guests.length, ∀ k < params.num_cars,
    v.endv m k = v.dep m + params.round_trip_min
  noOverlap : ∀ k < params.num_cars, ∀ m1 < guests.length, ∀ m2 < guests.length,
    m1 ≠ m2 → v.z m1 k = true → v.z m2 k = true →
    v.dep m1 + params.round_trip_min ≤ v.dep m2 ∨
    v.dep m2 + params.round_trip_min ≤ v.dep m1
  -- (6) objective support variables
  depGuestLink : ∀ i < guests.length, ∀ m < guests.length,
    v.x i m = true → v.depGuest i = v.dep m
  waitLink : ∀ i < guests.length, v.wait i = v.depGuest i - arrv guests i
  totalWaitEq : v.totalWait =
    ((List.range guests.length).map (fun i => v.wait i)).sum

/-- The minimized objective `total_wait + trip_penalty * sum(used)` with
`trip_penalty = 1`. -/
def objective (guests : List Guest) (v : Valuation) : Int :=
  v.totalWait + ((List.range guests.length).map (fun m => b2i (v.used m))).sum

/-- An assignment the solver may report under status `OPTIMAL`: it satisfies
the model and no satisfying assignment has a smaller objective. -/
def IsOptimal (guests : List Guest) (params : SolveParams) (v : Valuation) : Prop :=
  SatisfiesModel guests params v ∧
  ∀ w, SatisfiesModel guests params w → objective guests v ≤ objective guests w

/-- One guest record of a trip's `"guests"` output list. -/
structure GuestOut where
  guest_id : String
  name : String
  arrival_min : Int
  wait_min : Int
deriving DecidableEq

/-- One entry of the `"trips"` output list. -/
structure TripOut where
  trip_index : Nat
  vehicle_index : Option Nat
  vehicle_capacity : Option Int
  departure_min : Int
  min_arrival_min : Int
  max_arrival_min : Int
  num_guests : Nat
  guests : List GuestOut
deriving DecidableEq

/-- The result dictionary.  A field whose key is absent from the returned
Python dict is `none`. -/
structure SolveResult where
  status : String
  reason : Option String := none
  num_guests : Option Nat := none
  num_vehicles : Option Nat := none
  vehicle_capacities : Option (List Int) := none
  max_wait_min : Option Int := none
  round_trip_min : Option Int := none
  num_trips_used : Option Nat := none
  total_wait_min : Option Int := none
  trips : Option (List TripOut) := none
deriving DecidableEq

/-- Stable insertion into an ascending list: a later element goes after the
elements it ties with, as Python's stable `sorted` does. -/
def insertByLe (le : α → α → Bool) (a : α) : List α → List α
  | [] => [a]
  | b :: l => if le b a then b :: insertByLe le a l else a :: b :: l

/-- Stable ascending sort, the embedding of Python's `sorted(..., key=...)`. -/
def sortByLe (le : α → α → Bool) (l : List α) : List α :=
  l.foldl (fun acc a => insertByLe le a acc) []

/-- Record built for an assigned guest in the output loop. -/
def mkGuestOut (guests : List Guest) (v : Valuation) (i : Nat) : GuestOut :=
  { guest_id := (guests.getD i defaultGuest).guest_id
    name := (guests.getD i defaultGuest).name
    arrival_min := arrv guests i
    wait_min := v.wait i }

/-- The trip record built for a used slot `m` in the output loop. -/
def mkTrip (guests : List Guest) (params : SolveParams) (v : Valuation) (m : Nat) : TripOut :=
  let vehicle := (List.range params.num_cars).find? (fun k => v.z m k)
  let assigned := ((List.range guests.length).filter (fun i => v.x i m)).map
    (mkGuestOut guests v)
  { trip_index := m
    vehicle_index := vehicle
    vehicle_capacity := vehicle.map (fun k => (normCaps params).getD k 0)
    departure_min := v.dep m
    min_arrival_min := v.minArr m
    max_arrival_min := v.maxArr m
    num_guests := assigned.length
    guests := sortByLe (fun a b => decide (a.arrival_min ≤ b.arrival_min)) assigned }

/-- `trips_out`: used slots only, each slot's record, finally sorted by
departure time. -/
def tripsOut (guests : List Guest) (params : SolveParams) (v : Valuation) : List TripOut :=
  sortByLe (fun a b => decide (a.departure_min ≤ b.departure_min))
    (((List.range guests.length).filter (fun m => v.used m)).map (mkTrip guests params v))

/-- The `ValueError`s `solve_pickups_multitrip` can raise, in source order:
the capacity validation, `max()` of an empty capacity list, and the two
grouping-rule checks. -/
inductive SolveError where
  | capacityError
  | maxOfEmpty
  | togetherUnknownGuest
  | vehicleIndexOutOfRange
deriving DecidableEq

/-- Validation of the `must_ride_together_in_vehicle` rule (lines 171-181). -/
def validateTogether (guests : List Guest) (params : SolveParams) : Except SolveError Unit :=
  match params.must_ride_together_in_vehicle with
  | none => Except.ok ()
  | some r =>
    if id_to_i guests r.guest_id_a = none ∨ id_to_i guests r.guest_id_b = none then
      Except.error SolveError.togetherUnknownGuest
    else if ¬ (0 ≤ r.vehicle_index ∧ r.vehicle_index < (params.num_cars : Int)) then
      Except.error SolveError.vehicleIndexOutOfRange
    else Except.ok ()

/-- The external CP-SAT call: either a value assignment (status `OPTIMAL` or
`FEASIBLE`) or a failure status (`INFEASIBLE`/`UNKNOWN`). -/
inductive SolverOutcome where
  | success (v : Valuation)
  | failure

def infeasibleReason : String :=
  "No schedule satisfies constraints (max_wait too small, too few vehicles, RT too large, or constraints too strict)."

/-- The early return for an empty guest list (lines 32-40). -/
def emptyResult (params : SolveParams) : SolveResult :=
  { status := "ok"
    num_guests := some 0
    num_vehicles := some params.num_cars
    total_wait_min := some 0
    num_trips_used := some 0
    trips := some [] }

/-- The return for a failed solve (lines 224-228). -/
def infeasibleResult : SolveResult :=
  { status := "infeasible", reason := some infeasibleReason }

/-- The final plan output (lines 230-275). -/
def okResult (guests : List Guest) (params : SolveParams) (v : Valuation) : SolveResult :=
  let ts := tripsOut guests params v
  { status := "ok"
    num_guests := some guests.length
    num_vehicles := some params.num_cars
    vehicle_capacities := some (normCaps params)
    max_wait_min := some params.max_wait_min
    round_trip_min := some params.round_trip_min
    num_trips_used := some ts.length
    total_wait_min := some v.totalWait
    trips := some ts }

/-- `solve_pickups_multitrip`, with the CP-SAT call abstracted into the
`oracle` argument.  Raised `ValueError`s become `Except.error`. -/
def solve_pickups_multitrip (guests : List Guest) (params : SolveParams)
    (oracle : SolverOutcome) : Except SolveError SolveResult :=
  if guests.isEmpty then Except.ok (emptyResult params)
  else if (normCaps params).any (fun c => decide (c < 1)) then
    Except.error SolveError.capacityError
  else if (normCaps params).isEmpty then Except.error SolveError.maxOfEmpty
  else
    match validateTogether guests params with
    | Except.error e => Except.error e
    | Except.ok _ =>
      match oracle with
      | SolverOutcome.failure => Except.ok infeasibleResult
      | SolverOutcome.success v => Except.ok (okResult guests params v)

/-- `SolveRequest` of `main.py`.  Pydantic defaults are the field defaults;
an explicit JSON `null` is `none`. -/
structure SolveRequest where
  guests : List Guest
  num_cars : Nat
  capacity_per_car : Int
  max_wait_min : Int
  round_trip_min : Option Int := some 240
  vehicle_capacities : Option (List Int) := none
  incompatible_pairs : Option (List (String × String)) := none
  must_ride_together_in_vehicle : Option TogetherRule := none
  time_horizon_min : Option Int := none

/-- The `SolveParams` the `/solve` endpoint builds; note
`round_trip_min=req.round_trip_min or 240` maps both `None` and `0`
(the falsy values) to 240. -/
def paramsOfRequest (req : SolveRequest) : SolveParams :=
  { num_cars := req.num_cars
    capacity_per_car := req.capacity_per_car
    max_wait_min := req.max_wait_min
    time_horizon_min := req.time_horizon_min
    round_trip_min := match req.round_trip_min with
      | none => 240
      | some rt => if rt = 0 then 240 else rt
    vehicle_capacities := req.vehicle_capacities
    incompatible_pairs := req.incompatible_pairs
    must_ride_together_in_vehicle := req.must_ride_together_in_vehicle }

/-- The `/solve` endpoint body. -/
def solveEndpoint (req : SolveRequest) (oracle : SolverOutcome) :
    Except SolveError SolveResult :=
  solve_pickups_multitrip req.guests (paramsOfRequest req) oracle

/-- `total_wait_min` of a solve outcome, for stating concrete evaluations. -/
def resTotalWait (e : Except SolveError SolveResult) : Option Int :=
  match e with
  | Except.ok r => r.total_wait_min
  | Except.error _ => none

/-- Whether two guest ids share a trip in a solve outcome. -/
def resSameTrip (e : Except SolveError SolveResult) (g1 g2 : String) : Bool :=
  match e with
  | Except.ok r =>
    match r.trips with
    | some L => L.any (fun t =>
        t.guests.any (fun g => g.guest_id == g1) && t.guests.any (fun g => g.guest_id == g2))
    | none => false
  | Except.error _ => false

/-- The guest ids the assignment puts in slot `m`. -/
def tripGuestIds (guests : List Guest) (v : Valuation) (m : Nat) : List String :=
  ((List.range guests.length).filter (fun i => v.x i m)).map
    (fun i => (guests.getD i defaultGuest).guest_id)

/-! ### List helper lemmas -/

theorem b2i_nonneg (b : Bool) : 0 ≤ b2i b := by cases b <;> simp [b2i]

theorem b2i_le_one (b : Bool) : b2i b ≤ 1 := by cases b <;> simp [b2i]

theorem insertByLe_perm (le : α → α → Bool) (a : α) (l : List α) :
    (insertByLe le a l).Perm (a :: l) := by
  induction l with
  | nil => simp [insertByLe]
  | cons b t ih =>
    by_cases h : le b a
    · simpa [insertByLe, h] using ((ih.cons b).trans (List.Perm.swap a b t))
    · simp [insertByLe, h]

theorem foldl_insert_perm (le : α → α → Bool) :
    ∀ (l acc : List α), (l.foldl (fun acc a => insertByLe le a acc) acc).Perm (acc ++ l) := by
  intro l
  induction l with
  | nil => intro acc; simp
  | cons a t ih =>
    intro acc
    have h1 := ih (insertByLe le a acc)
    have h2 : (insertByLe le a acc ++ t).Perm (acc ++ a :: t) := by
      have hins : (insertByLe le a acc).Perm (a :: acc) := insertByLe_perm le a acc
      have hmid : (a :: (acc ++ t)).Perm (acc ++ a :: t) := List.perm_middle.symm
      exact (hins.append_right t).trans hmid
    exact h1.trans h2

theorem sortByLe_perm (le : α → α → Bool) (l : List α) : (sortByLe le l).Perm l := by
  simpa [sortByLe] using foldl_insert_perm le l []

theorem getD_map_range (f : Nat → α) (n i : Nat) (d : α) (h : i < n) :
    ((List.range n).map f).getD i d = f i := by
  rw [List.getD_eq_getElem?_getD, List.getElem?_map, List.getElem?_range h]
  rfl

theorem map_range_getD (l : List α) (d : α) :
    (List.range l.length).map (fun i => l.getD i d) = l := by
  induction l with
  | nil => rfl
  | cons a t ih =>
    simp only [List.length_cons, List.range_succ_eq_map, List.map_cons, List.map_map]
    have h0 : (a :: t).getD 0 d = a := rfl
    rw [h0]
    refine congrArg (a :: ·) ?_
    rw [show ((fun i => (a :: t).getD i d) ∘ Nat.succ) = fun i => t.getD i d from ?_]
    · exact ih
    · funext i; rfl

theorem sum_filter_ite (l : List Nat) (p : Nat → Bool) (f : Nat → Int) :
    ((l.filter p).map f).sum = (l.map (fun i => if p i then f i else 0)).sum := by
  induction l with
  | nil => rfl
  | cons a t ih =>
    rw [List.filter_cons]
    by_cases h : p a
    · simp [h, ih]
    · simp [h, ih]

theorem list_sum_comm (l1 l2 : List Nat) (f : Nat → Nat → Int) :
    (l1.map (fun a => (l2.map (f a)).sum)).sum =
      (l2.map (fun b => (l1.map (fun a => f a b)).sum)).sum := by
  induction l1 with
  | nil => simp
  | cons a t ih =>
    simp only [List.map_cons, List.sum_cons, ih, List.sum_map_add.symm]

theorem foldr_perm_of_comm {f : α → β → β}
    (hf : ∀ a b acc, f a (f b acc) = f b (f a acc)) {l1 l2 : List α}
    (h : l1.Perm l2) (d : β) : l1.foldr f d = l2.foldr f d := by
  induction h with
  | nil => rfl
  | cons x _ ih => simp [List.foldr, ih]
  | swap x y l => exact hf y x (l.foldr f d)
  | trans _ _ ih1 ih2 => exact ih1.trans ih2

theorem pyMinAux_perm {l1 l2 : List Int} (h : l1.Perm l2) : pyMinAux l1 = pyMinAux l2 := by
  refine foldr_perm_of_comm ?_ h none
  intro a b acc
  cases acc with
  | none => simp [min_comm]
  | some c => simp [min_left_comm]

theorem pyMaxAux_perm {l1 l2 : List Int} (h : l1.Perm l2) : pyMaxAux l1 = pyMaxAux l2 := by
  refine foldr_perm_of_comm ?_ h none
  intro a b acc
  cases acc with
  | none => simp [max_comm]
  | some c => simp [max_left_comm]

theorem minA_perm {l1 l2 : List Guest} (h : l1.Perm l2) : minA l1 = minA l2 := by
  unfold minA
  rw [pyMinAux_perm (h.map (fun g => g.arrival_min))]

theorem maxA_perm {l1 l2 : List Guest} (h : l1.Perm l2) : maxA l1 = maxA l2 := by
  unfold maxA
  rw [pyMaxAux_perm (h.map (fun g => g.arrival_min))]

/-! ### Control-flow inversion lemmas for `solve_pickups_multitrip` -/

theorem validateTogether_errors {guests : List Guest} {params : SolveParams} {e : SolveError}
    (h : validateTogether guests params = Except.error e) :
    e = SolveError.togetherUnknownGuest ∨ e = SolveError.vehicleIndexOutOfRange := by
  unfold validateTogether at h
  split at h
  · cases h
  · split at h
    · cases h; exact Or.inl rfl
    · split at h
      · cases h; exact Or.inr rfl
      · cases h

theorem solve_ok_cases {guests : List Guest} {params : SolveParams}
    {oracle : SolverOutcome} {r : SolveResult}
    (h : solve_pickups_multitrip guests params oracle = Except.ok r) :
    (guests = [] ∧ r = emptyResult params) ∨
    (guests ≠ [] ∧ oracle = SolverOutcome.failure ∧ r = infeasibleResult) ∨
    (guests ≠ [] ∧ ∃ v, oracle = SolverOutcome.success v ∧ r = okResult guests params v) := by
  unfold solve_pickups_multitrip at h
  split at h
  · exact Or.inl ⟨List.isEmpty_iff.mp (by assumption), (Except.ok.inj h).symm⟩
  · have hne : guests ≠ [] := fun hnil => by simp [hnil] at *
    split at h
    · cases h
    · split at h
      · cases h
      · split at h
        · cases h
        · cases oracle with
          | failure => exact Or.inr (Or.inl ⟨hne, rfl, (Except.ok.inj h).symm⟩)
          | success v => exact Or.inr (Or.inr ⟨hne, v, rfl, (Except.ok.inj h).symm⟩)

theorem solve_error_cases {guests : List Guest} {params : SolveParams}
    {oracle : SolverOutcome} {e : SolveError}
    (h : solve_pickups_multitrip guests params oracle = Except.error e) :
    guests ≠ [] ∧
    ((e = SolveError.capacityError ∧
        (normCaps params).any (fun c => decide (c < 1)) = true) ∨
     (e = SolveError.maxOfEmpty ∧
        (normCaps params).any (fun c => decide (c < 1)) = false ∧ normCaps params = []) ∨
     ((normCaps params).any (fun c => decide (c < 1)) = false ∧ normCaps params ≠ [] ∧
        validateTogether guests params = Except.error e)) := by
  unfold solve_pickups_multitrip at h
  split at h
  · cases h
  · next hi =>
    have hne : guests ≠ [] := fun hnil => by simp [hnil] at hi
    refine ⟨hne, ?_⟩
    split at h
    · next hany => exact Or.inl ⟨(Except.error.inj h).symm, hany⟩
    · next hany =>
      have hany' : (normCaps params).any (fun c => decide (c < 1)) = false := by
        simpa using hany
      split at h
      · next hemp =>
        exact Or.inr (Or.inl ⟨(Except.error.inj h).symm, hany', List.isEmpty_iff.mp hemp⟩)
      · next hemp =>
        have hnil : normCaps params ≠ [] := fun hc => hemp (by simp [hc])
        split at h
        · next e' hv =>
          refine Or.inr (Or.inr ⟨hany', hnil, ?_⟩)
          rw [hv]
          exact congrArg Except.error (Except.error.inj h)
        · next hv => cases oracle <;> cases h

theorem isEmpty_false_of_ne {l : List α} (h : l ≠ []) : l.isEmpty = false := by
  cases l with
  | nil => exact absurd rfl h
  | cons a t => rfl

/-! ### Concrete instances used as witnesses -/

def exGA : Guest := ⟨"a", "A", 0⟩

def exGB : Guest := ⟨"b", "B", 1⟩

def exG : List Guest := [exGA, exGB]

def exG2 : List Guest := [exGB, exGA]

def exP : SolveParams := { num_cars := 2, capacity_per_car := 2, max_wait_min := 1 }

/-- Assignment putting both guests of `exG` in slot 0 on vehicle 0. -/
def exV1 : Valuation :=
  { x := fun _ m => m == 0
    used := fun m => m == 0
    dep := fun m => if m == 0 then 1 else 0
    minArr := fun _ => 0
    maxArr := fun m => if m == 0 then 1 else 0
    z := fun m k => m == 0 && k == 0
    vmin := fun i m => if m == 0 then (if i == 0 then 0 else 1) else 10242
    vmax := fun i m => if m == 0 then (if i == 0 then 0 else 1) else -10000
    dummyMin := fun m => if m == 0 then 10242 else 0
    dummyMax := fun m => if m == 0 then -10000 else 0
    endv := fun m _ => if m == 0 then 241 else 240
    depGuest := fun _ => 1
    wait := fun i => if i == 0 then 1 else 0
    totalWait := 1 }

/-- Assignment for `exG2` putting guest `i` in slot `i` on vehicle `i`. -/
def exV2 : Valuation :=
  { x := fun i m => i == m
    used := fun _ => true
    dep := fun m => if m == 0 then 1 else 0
    minArr := fun m => if m == 0 then 1 else 0
    maxArr := fun m => if m == 0 then 1 else 0
    z := fun m k => m == k
    vmin := fun i m => if i == m then (if i == 0 then 1 else 0) else 10242
    vmax := fun i m => if i == m then (if i == 0 then 1 else 0) else -10000
    dummyMin := fun _ => 10242
    dummyMax := fun _ => -10000
    endv := fun m _ => if m == 0 then 241 else 240
    depGuest := fun i => if i == 0 then 1 else 0
    wait := fun _ => 0
    totalWait := 0 }

def exPbadCaps : SolveParams :=
  { num_cars := 1, capacity_per_car := 3, max_wait_min := 0
    vehicle_capacities := some [0]
    must_ride_together_in_vehicle := some ⟨"ghost", "g2", 5⟩ }

def exPbadRule : SolveParams :=
  { num_cars := 1, capacity_per_car := 3, max_wait_min := 0
    must_ride_together_in_vehicle := some ⟨"ghost", "b", 0⟩ }

def exPbadRule2 : SolveParams :=
  { num_cars := 2, capacity_per_car := 2, max_wait_min := 1
    must_ride_together_in_vehicle := some ⟨"ghost", "b", 0⟩ }

def exReq0 : SolveRequest :=
  { guests := exG, num_cars := 2, capacity_per_car := 2, max_wait_min := 1
    round_trip_min := some 0 }

/-! ### The claims -/

/-- Claim C1: whenever instance construction succeeds (the call does not
raise), the returned result's `status` field is exactly `"ok"` or
`"infeasible"`, the `reason` field is present iff the status is
`"infeasible"`, and the trips plan is present only when the status is
`"ok"`. -/
theorem C1_status_reason_trips (guests : List Guest) (params : SolveParams)
    (oracle : SolverOutcome) (r : SolveResult)
    (h : solve_pickups_multitrip guests params oracle = Except.ok r) :
    (r.status = "ok" ∨ r.status = "infeasible") ∧
    (r.reason.isSome ↔ r.status = "infeasible") ∧
    (r.trips.isSome → r.status = "ok") := by
  rcases solve_ok_cases h with ⟨-, rfl⟩ | ⟨-, -, rfl⟩ | ⟨-, v, -, rfl⟩
  · exact ⟨Or.inl rfl, by simp [emptyResult], fun _ => rfl⟩
  · exact ⟨Or.inr rfl, by simp [infeasibleResult], by simp [infeasibleResult]⟩
  · exact ⟨Or.inl rfl, by simp [okResult], fun _ => rfl⟩

theorem C1_status_reason_trips_witness :
    ((emptyResult exP).status = "ok" ∨ (emptyResult exP).status = "infeasible") ∧
    ((emptyResult exP).reason.isSome ↔ (emptyResult exP).status = "infeasible") ∧
    ((emptyResult exP).trips.isSome → (emptyResult exP).status = "ok") :=
  C1_status_reason_trips [] exP SolverOutcome.failure (emptyResult exP) rfl

/-- Claim C4: capacity normalization — absent `vehicle_capacities` becomes
`capacity_per_car` repeated `num_cars` times; a supplied list is padded with
`capacity_per_car` when shorter than `num_cars` and truncated when longer;
and (on a non-empty guest list) the call fails with the capacity
`ValidationError` iff the normalized list contains an entry `< 1`, before
the solver oracle is ever consulted (the equivalence holds for every
oracle). -/
theorem C4_capacity_normalization (params : SolveParams) :
    (params.vehicle_capacities = none →
      normCaps params = List.replicate params.num_cars params.capacity_per_car) ∧
    (∀ cs, params.vehicle_capacities = some cs → cs.length < params.num_cars →
      normCaps params = cs ++ List.replicate (params.num_cars - cs.length) params.capacity_per_car) ∧
    (∀ cs, params.vehicle_capacities = some cs → params.num_cars < cs.length →
      normCaps params = cs.take params.num_cars) ∧
    (∀ (guests : List Guest) (oracle : SolverOutcome), guests ≠ [] →
      (solve_pickups_multitrip guests params oracle = Except.error SolveError.capacityError ↔
        ∃ c ∈ normCaps params, c < 1)) := by
  refine ⟨?_, ?_, ?_, ?_⟩
  · intro h
    simp [normCaps, h, List.take_replicate]
  · intro cs h hlt
    simp [normCaps, h, hlt]
  · intro cs h hgt
    have hnlt : ¬ cs.length < params.num_cars := by omega
    simp [normCaps, h, hnlt]
  · intro guests oracle hne
    constructor
    · intro h
      rcases solve_error_cases h with ⟨-, hcase⟩
      rcases hcase with ⟨-, hany⟩ | ⟨habs, -, -⟩ | ⟨-, -, hval⟩
      · rcases List.any_eq_true.mp hany with ⟨c, hc, hlt⟩
        exact ⟨c, hc, by simpa using hlt⟩
      · exact SolveError.noConfusion habs
      · rcases validateTogether_errors hval with h1 | h1 <;> exact SolveError.noConfusion h1
    · rintro ⟨c, hc, hlt⟩
      have hni : guests.isEmpty = false := isEmpty_false_of_ne hne
      have hany : (normCaps params).any (fun c => decide (c < 1)) = true :=
        List.any_eq_true.mpr ⟨c, hc, by simpa using hlt⟩
      simp [solve_pickups_multitrip, hni, hany]

theorem C4_capacity_normalization_witness :
    normCaps { num_cars := 2, capacity_per_car := 3, max_wait_min := 0 } = [3, 3] ∧
    solve_pickups_multitrip exG exPbadCaps SolverOutcome.failure =
      Except.error SolveError.capacityError := by
  constructor
  · rw [(C4_capacity_normalization
      { num_cars := 2, capacity_per_car := 3, max_wait_min := 0 }).1 rfl]
    decide
  · exact ((C4_capacity_normalization exPbadCaps).2.2.2 exG SolverOutcome.failure
      (by decide)).mpr ⟨0, by decide, by decide⟩

/-- Claim C5: the empty guest list short-circuits to `status="ok"`,
`num_trips_used=0`, `total_wait_min=0` and an empty trips list, regardless
of parameters and of the solver oracle. -/
theorem C5_empty_guest_list (params : SolveParams) (oracle : SolverOutcome) :
    ∃ r, solve_pickups_multitrip [] params oracle = Except.ok r ∧
      r.status = "ok" ∧ r.num_trips_used = some 0 ∧ r.total_wait_min = some 0 ∧
      r.trips = some [] :=
  ⟨emptyResult params, rfl, rfl, rfl, rfl, rfl⟩

/-- Claim C9: with an empty guest list the trivial `"ok"` result is returned
without any capacity or rule validation (bad capacities and malformed rules
raise nothing), and that result omits the `vehicle_capacities`,
`max_wait_min` and `round_trip_min` keys that every non-empty `"ok"` result
carries. -/
theorem C9_empty_skips_validation (params : SolveParams) (oracle : SolverOutcome)
    (guests : List Guest) (params2 : SolveParams) (oracle2 : SolverOutcome)
    (r2 : SolveResult) :
    (∃ r, solve_pickups_multitrip [] params oracle = Except.ok r ∧
      r.status = "ok" ∧ r.vehicle_capacities = none ∧ r.max_wait_min = none ∧
      r.round_trip_min = none) ∧
    (guests ≠ [] → solve_pickups_multitrip guests params2 oracle2 = Except.ok r2 →
      r2.status = "ok" →
      r2.vehicle_capacities = some (normCaps params2) ∧
      r2.max_wait_min = some params2.max_wait_min ∧
      r2.round_trip_min = some params2.round_trip_min) := by
  constructor
  · exact ⟨emptyResult params, rfl, rfl, rfl, rfl, rfl⟩
  · intro hne h hok
    rcases solve_ok_cases h with ⟨hnil, -⟩ | ⟨-, -, rfl⟩ | ⟨-, v, -, rfl⟩
    · exact absurd hnil hne
    · exact absurd hok (by decide)
    · exact ⟨rfl, rfl, rfl⟩

theorem C9_empty_skips_validation_witness :
    (∃ r, solve_pickups_multitrip [] exPbadCaps SolverOutcome.failure = Except.ok r ∧
      r.status = "ok" ∧ r.vehicle_capacities = none ∧ r.max_wait_min = none ∧
      r.round_trip_min = none) ∧
    ((okResult exG exP exV1).vehicle_capacities = some (normCaps exP) ∧
      (okResult exG exP exV1).max_wait_min = some exP.max_wait_min ∧
      (okResult exG exP exV1).round_trip_min = some exP.round_trip_min) := by
  have h := C9_empty_skips_validation exPbadCaps SolverOutcome.failure exG exP
    (SolverOutcome.success exV1) (okResult exG exP exV1)
  exact ⟨h.1, h.2 (by decide) rfl rfl⟩

/-- Claim C10: the `/solve` endpoint replaces a falsy `round_trip_min`
(explicit 0 or null) by the default 240 before calling the solver, so the
core is never called with `round_trip_min = 0` through the API. -/
theorem C10_endpoint_round_trip_default (req : SolveRequest) (oracle : SolverOutcome) :
    (req.round_trip_min = some 0 ∨ req.round_trip_min = none →
      (paramsOfRequest req).round_trip_min = 240 ∧
      solveEndpoint req oracle =
        solve_pickups_multitrip req.guests (paramsOfRequest req) oracle) ∧
    (paramsOfRequest req).round_trip_min ≠ 0 := by
  constructor
  · intro h
    refine ⟨?_, rfl⟩
    rcases h with h | h <;> simp [paramsOfRequest, h]
  · rcases hrt : req.round_trip_min with _ | rt
    · simp [paramsOfRequest, hrt]
    · by_cases h0 : rt = 0
      · simp [paramsOfRequest, hrt, h0]
      · simp [paramsOfRequest, hrt, h0]

/-- The incompatible pairs whose two guest ids both resolve. -/
def knownPairs (guests : List Guest) (params : SolveParams) : List (String × String) :=
  (pairsOf params).filter (fun p =>
    (id_to_i guests p.1).isSome && (id_to_i guests p.2).isSome)

/-- Replacing the incompatible pairs preserves satisfaction as long as the
per-pair clauses of the new list hold; every other model clause ignores the
pair list. -/
theorem sat_set_pairs {guests : List Guest} {params : SolveParams} {v : Valuation}
    (ps : Option (List (String × String)))
    (hS : SatisfiesModel guests params v)
    (hcl : ∀ p ∈ ps.getD ([] : List (String × String)), ∀ i1 i2,
      id_to_i guests p.1 = some i1 → id_to_i guests p.2 = some i2 →
      ∀ m < guests.length, b2i (v.x i1 m) + b2i (v.x i2 m) ≤ 1) :
    SatisfiesModel guests { params with incompatible_pairs := ps } v :=
  { depDom := hS.depDom, minArrDom := hS.minArrDom, maxArrDom := hS.maxArrDom
    vminDom := hS.vminDom, vmaxDom := hS.vmaxDom, dummyMinDom := hS.dummyMinDom
    dummyMaxDom := hS.dummyMaxDom, endDom := hS.endDom, depGuestDom := hS.depGuestDom
    waitDom := hS.waitDom, totalWaitDom := hS.totalWaitDom, partition := hS.partition
    usedImp := hS.usedImp, loadGe := hS.loadGe, loadEq0 := hS.loadEq0, zSum := hS.zSum
    capacity := hS.capacity, vminLink := hS.vminLink, vmaxLink := hS.vmaxLink
    dummyLink := hS.dummyLink, minArrEq := hS.minArrEq, maxArrEq := hS.maxArrEq
    depEq := hS.depEq, waitSpread := hS.waitSpread
    incompat := hcl
    together := hS.together, endLink := hS.endLink, noOverlap := hS.noOverlap
    depGuestLink := hS.depGuestLink, waitLink := hS.waitLink
    totalWaitEq := hS.totalWaitEq }

/-- Claim C7 (amended): incompatible-pair entries never influence the raised
errors or the returned result object, a pair naming an unknown guest id
imposes no model constraint (satisfaction is unchanged when unknown-id pairs
are filtered out), and — on a NON-EMPTY guest list — a grouping rule naming
an unknown guest id or an out-of-range vehicle index makes the call fail
with a hard input error instead of returning a solver outcome.  (On an empty
guest list the trivial result is returned before rule validation, see the
counterexample.) -/
theorem C7_unknown_id_handling (guests : List Guest) (params : SolveParams)
    (oracle : SolverOutcome) :
    (∀ ps, solve_pickups_multitrip guests { params with incompatible_pairs := ps } oracle =
      solve_pickups_multitrip guests params oracle) ∧
    (∀ v, SatisfiesModel guests params v ↔
      SatisfiesModel guests
        { params with incompatible_pairs := some (knownPairs guests params) } v) ∧
    (guests ≠ [] → ∀ r, params.must_ride_together_in_vehicle = some r →
      (id_to_i guests r.guest_id_a = none ∨ id_to_i guests r.guest_id_b = none ∨
        ¬ (0 ≤ r.vehicle_index ∧ r.vehicle_index < (params.num_cars : Int))) →
      ∃ e, solve_pickups_multitrip guests params oracle = Except.error e) := by
  refine ⟨?_, ?_, ?_⟩
  · intro ps
    rfl
  · intro v
    constructor
    · intro hS
      refine sat_set_pairs _ hS ?_
      intro p hp i1 i2 h1 h2
      exact hS.incompat p (List.mem_filter.mp hp).1 i1 i2 h1 h2
    · intro hS'
      have h := sat_set_pairs (params.incompatible_pairs) hS' ?_
      · exact h
      · intro p hp i1 i2 h1 h2
        refine hS'.incompat p ?_ i1 i2 h1 h2
        have : p ∈ knownPairs guests params := by
          refine List.mem_filter.mpr ⟨hp, ?_⟩
          simp [h1, h2]
        simpa [pairsOf] using this
  · intro hne r hr hbad
    have hni : guests.isEmpty = false := isEmpty_false_of_ne hne
    by_cases hany : (normCaps params).any (fun c => decide (c < 1)) = true
    · exact ⟨SolveError.capacityError, by simp [solve_pickups_multitrip, hni, hany]⟩
    · by_cases hemp : (normCaps params).isEmpty = true
      · exact ⟨SolveError.maxOfEmpty, by
          simp only [solve_pickups_multitrip, hni, Bool.false_eq_true, if_false]
          rw [if_neg (by simpa using hany), if_pos hemp]⟩
      · by_cases hu : id_to_i guests r.guest_id_a = none ∨ id_to_i guests r.guest_id_b = none
        · refine ⟨SolveError.togetherUnknownGuest, ?_⟩
          have hval : validateTogether guests params =
              Except.error SolveError.togetherUnknownGuest := by
            unfold validateTogether
            rw [hr]
            simp [hu]
          simp only [solve_pickups_multitrip, hni, Bool.false_eq_true, if_false]
          rw [if_neg (by simpa using hany), if_neg (by simpa using hemp), hval]
        · have hrange : ¬ (0 ≤ r.vehicle_index ∧ r.vehicle_index < (params.num_cars : Int)) := by
            rcases hbad with h | h | h
            · exact absurd (Or.inl h) hu
            · exact absurd (Or.inr h) hu
            · exact h
          refine ⟨SolveError.vehicleIndexOutOfRange, ?_⟩
          have hval : validateTogether guests params =
              Except.error SolveError.vehicleIndexOutOfRange := by
            unfold validateTogether
            rw [hr]
            simp [hu, hrange]
          simp only [solve_pickups_multitrip, hni, Bool.false_eq_true, if_false]
          rw [if_neg (by simpa using hany), if_neg (by simpa using hemp), hval]

/-- Counterexample to claim C7 as stated: with an EMPTY guest list every
guest id named by the grouping rule is unknown, yet the call returns the
trivial "ok" result rather than failing with a hard input error. -/
theorem C7_unknown_id_handling_counterexample :
    id_to_i ([] : List Guest) "ghost" = none ∧
    solve_pickups_multitrip [] exPbadRule SolverOutcome.failure =
      Except.ok (emptyResult exPbadRule) :=
  ⟨rfl, rfl⟩

theorem C7_unknown_id_handling_witness :
    solve_pickups_multitrip exG { exP with incompatible_pairs := some [("a", "zz")] }
        SolverOutcome.failure =
      solve_pickups_multitrip exG exP SolverOutcome.failure ∧
    (∃ e, solve_pickups_multitrip exG exPbadRule2 SolverOutcome.failure =
      Except.error e) := by
  refine ⟨(C7_unknown_id_handling exG exP SolverOutcome.failure).1 (some [("a", "zz")]),
    (C7_unknown_id_handling exG exPbadRule2 SolverOutcome.failure).2.2 (by decide)
      ⟨"ghost", "b", 0⟩ rfl ?_⟩
  left
  decide

theorem C10_endpoint_round_trip_default_witness :
    ((paramsOfRequest exReq0).round_trip_min = 240 ∧
      solveEndpoint exReq0 SolverOutcome.failure =
        solve_pickups_multitrip exReq0.guests (paramsOfRequest exReq0)
          SolverOutcome.failure) ∧
    (paramsOfRequest exReq0).round_trip_min ≠ 0 := by
  have h := C10_endpoint_round_trip_default exReq0 SolverOutcome.failure
  exact ⟨h.1 (Or.inl rfl), h.2⟩

set_option synthInstance.maxSize 1024 in
theorem exSat1 : SatisfiesModel exG exP exV1 := by
  constructor <;> first
    | decide
    | (intro r hr; cases hr)

set_option synthInstance.maxSize 1024 in
theorem exSat2 : SatisfiesModel exG2 exP exV2 := by
  constructor <;> first
    | decide
    | (intro r hr; cases hr)

/-! ### Extraction membership lemmas -/

theorem mem_tripsOut {guests : List Guest} {params : SolveParams} {v : Valuation}
    {t : TripOut} (ht : t ∈ tripsOut guests params v) :
    ∃ m, m < guests.length ∧ v.used m = true ∧ t = mkTrip guests params v m := by
  unfold tripsOut at ht
  have ht' := (sortByLe_perm _ _).mem_iff.mp ht
  rcases List.mem_map.mp ht' with ⟨m, hm, rfl⟩
  rcases List.mem_filter.mp hm with ⟨hr, hu⟩
  exact ⟨m, List.mem_range.mp hr, hu, rfl⟩

theorem mem_trip_guests {guests : List Guest} {params : SolveParams} {v : Valuation}
    {m : Nat} {g : GuestOut} (hg : g ∈ (mkTrip guests params v m).guests) :
    ∃ i, i < guests.length ∧ v.x i m = true ∧ g = mkGuestOut guests v i := by
  unfold mkTrip at hg
  simp only at hg
  have hg' := (sortByLe_perm _ _).mem_iff.mp hg
  rcases List.mem_map.mp hg' with ⟨i, hi, rfl⟩
  rcases List.mem_filter.mp hi with ⟨hr, hx⟩
  exact ⟨i, List.mem_range.mp hr, hx, rfl⟩

/-- Claim C2: in every returned trips plan each trip departs exactly at its
`max_arrival_min`, and every listed guest's `wait_min` equals the trip's
departure minus the guest's arrival. -/
theorem C2_departure_and_wait (guests : List Guest) (params : SolveParams)
    (oracle : SolverOutcome) (r : SolveResult) (L : List TripOut)
    (hOracle : ∀ v, oracle = SolverOutcome.success v → SatisfiesModel guests params v)
    (h : solve_pickups_multitrip guests params oracle = Except.ok r)
    (hL : r.trips = some L) :
    ∀ t ∈ L, t.departure_min = t.max_arrival_min ∧
      ∀ g ∈ t.guests, g.wait_min = t.departure_min - g.arrival_min := by
  rcases solve_ok_cases h with ⟨-, rfl⟩ | ⟨-, -, rfl⟩ | ⟨-, v, hv, rfl⟩
  · have : L = [] := by simpa [emptyResult] using hL.symm
    subst this
    intro t ht
    cases ht
  · simp [infeasibleResult] at hL
  · have hSat := hOracle v hv
    have hLo : L = tripsOut guests params v := by simpa [okResult] using hL.symm
    subst hLo
    intro t ht
    obtain ⟨m, hm, hu, rfl⟩ := mem_tripsOut ht
    refine ⟨?_, ?_⟩
    · simpa [mkTrip] using hSat.depEq m hm
    · intro g hg
      obtain ⟨i, hi, hx, rfl⟩ := mem_trip_guests hg
      simp only [mkGuestOut, mkTrip]
      rw [hSat.waitLink i hi, hSat.depGuestLink i hi m hm hx]

theorem C2_departure_and_wait_witness :
    (mkTrip exG exP exV1 0).departure_min = (mkTrip exG exP exV1 0).max_arrival_min :=
  ((C2_departure_and_wait exG exP (SolverOutcome.success exV1)
    (okResult exG exP exV1) (tripsOut exG exP exV1)
    (fun v hv => by cases hv; exact exSat1) rfl rfl)
    (mkTrip exG exP exV1 0) (by decide)).1

/-- Claim C3: trips carry pairwise distinct `trip_index`es, and two distinct
trips served by the same vehicle `k` have disjoint half-open activity
intervals `[departure_min, departure_min + round_trip_min)`. -/
theorem C3_vehicle_no_overlap (guests : List Guest) (params : SolveParams)
    (oracle : SolverOutcome) (r : SolveResult) (L : List TripOut)
    (hOracle : ∀ v, oracle = SolverOutcome.success v → SatisfiesModel guests params v)
    (h : solve_pickups_multitrip guests params oracle = Except.ok r)
    (hL : r.trips = some L) :
    (L.map (fun t => t.trip_index)).Nodup ∧
    ∀ t1 ∈ L, ∀ t2 ∈ L, t1.trip_index ≠ t2.trip_index →
      ∀ k, t1.vehicle_index = some k → t2.vehicle_index = some k →
        ∀ τ : Int, ¬ (t1.departure_min ≤ τ ∧ τ < t1.departure_min + params.round_trip_min ∧
          t2.departure_min ≤ τ ∧ τ < t2.departure_min + params.round_trip_min) := by
  rcases solve_ok_cases h with ⟨-, rfl⟩ | ⟨-, -, rfl⟩ | ⟨-, v, hv, rfl⟩
  · have : L = [] := by simpa [emptyResult] using hL.symm
    subst this
    exact ⟨List.nodup_nil, fun t ht => by cases ht⟩
  · simp [infeasibleResult] at hL
  · have hSat := hOracle v hv
    have hLo : L = tripsOut guests params v := by simpa [okResult] using hL.symm
    subst hLo
    constructor
    · have hperm := (sortByLe_perm (fun a b => decide (a.departure_min ≤ b.departure_min))
        (((List.range guests.length).filter (fun m => v.used m)).map (mkTrip guests params v)))
      have hmapped := hperm.map (fun t => t.trip_index)
      refine hmapped.nodup_iff.mpr ?_
      rw [List.map_map]
      have : ((fun t => t.trip_index) ∘ mkTrip guests params v) = fun m => m := by
        funext m
        simp [mkTrip]
      rw [this]
      simpa using (List.nodup_range guests.length).filter (fun m => v.used m)
    · intro t1 ht1 t2 ht2 hneq k hk1 hk2 τ hτ
      obtain ⟨m1, hm1, hu1, rfl⟩ := mem_tripsOut ht1
      obtain ⟨m2, hm2, hu2, rfl⟩ := mem_tripsOut ht2
      have hm12 : m1 ≠ m2 := by simpa [mkTrip] using hneq
      have hk1' : (List.range params.num_cars).find? (fun k => v.z m1 k) = some k := by
        simpa [mkTrip] using hk1
      have hk2' : (List.range params.num_cars).find? (fun k => v.z m2 k) = some k := by
        simpa [mkTrip] using hk2
      have hz1 : v.z m1 k = true := List.find?_some hk1'
      have hz2 : v.z m2 k = true := List.find?_some hk2'
      have hkK : k < params.num_cars :=
        List.mem_range.mp (List.mem_of_find?_eq_some hk1')
      have hdisj := hSat.noOverlap k hkK m1 hm1 m2 hm2 hm12 hz1 hz2
      have hd1 : (mkTrip guests params v m1).departure_min = v.dep m1 := by simp [mkTrip]
      have hd2 : (mkTrip guests params v m2).departure_min = v.dep m2 := by simp [mkTrip]
      rw [hd1, hd2] at hτ
      rcases hdisj with hle | hle <;> omega

theorem C3_vehicle_no_overlap_witness :
    ((tripsOut exG exP exV1).map (fun t => t.trip_index)).Nodup :=
  (C3_vehicle_no_overlap exG exP (SolverOutcome.success exV1)
    (okResult exG exP exV1) (tripsOut exG exP exV1)
    (fun v hv => by cases hv; exact exSat1) rfl rfl).1

/-- The wait total reported by the model variable `total_wait` equals the
sum of the per-guest waits listed across the extracted trips: the partition
constraint says each guest occurs in exactly one slot, unused slots are
empty, so the double sum collapses. -/
theorem totalWait_eq_sum_trips {guests : List Guest} {params : SolveParams} {v : Valuation}
    (hSat : SatisfiesModel guests params v) :
    ((tripsOut guests params v).map
      (fun t => ((t.guests.map (fun g => g.wait_min)).sum))).sum = v.totalWait := by
  have h1 : ((tripsOut guests params v).map
      (fun t => ((t.guests.map (fun g => g.wait_min)).sum))).sum =
      ((((List.range guests.length).filter (fun m => v.used m)).map
          (mkTrip guests params v)).map
        (fun t => ((t.guests.map (fun g => g.wait_min)).sum))).sum :=
    ((sortByLe_perm _ _).map _).sum_eq
  rw [h1, List.map_map]
  have h2 : ∀ m ∈ (List.range guests.length).filter (fun m => v.used m),
      ((fun t => ((t.guests.map (fun g => g.wait_min)).sum)) ∘ mkTrip guests params v) m =
      (((List.range guests.length).filter (fun i => v.x i m)).map (fun i => v.wait i)).sum := by
    intro m _
    simp only [Function.comp, mkTrip]
    have hs : ((sortByLe (fun a b => decide (a.arrival_min ≤ b.arrival_min))
        (((List.range guests.length).filter (fun i => v.x i m)).map (mkGuestOut guests v))).map
          (fun g => g.wait_min)).sum =
        ((((List.range guests.length).filter (fun i => v.x i m)).map
          (mkGuestOut guests v)).map (fun g => g.wait_min)).sum :=
      ((sortByLe_perm _ _).map _).sum_eq
    rw [hs, List.map_map]
    refine congrArg List.sum (List.map_congr_left ?_)
    intro i _
    simp [mkGuestOut]
  rw [List.map_congr_left h2,
    sum_filter_ite (List.range guests.length) (fun m => v.used m)
      (fun m => (((List.range guests.length).filter (fun i => v.x i m)).map
        (fun i => v.wait i)).sum)]
  have h3 : ∀ m ∈ List.range guests.length,
      (if v.used m then
        (((List.range guests.length).filter (fun i => v.x i m)).map (fun i => v.wait i)).sum
       else 0) =
      (((List.range guests.length).filter (fun i => v.x i m)).map (fun i => v.wait i)).sum := by
    intro m hm
    by_cases hu : v.used m = true
    · simp [hu]
    · have hub : v.used m = false := by simpa using hu
      have hfil : (List.range guests.length).filter (fun i => v.x i m) = [] := by
        refine List.filter_eq_nil_iff.mpr ?_
        intro i hi hxi
        have hx : v.x i m = true := by simpa using hxi
        have hused := hSat.usedImp m (List.mem_range.mp hm) i (List.mem_range.mp hi) hx
        rw [hub] at hused
        cases hused
      simp [hub, hfil]
  rw [List.map_congr_left h3]
  have h4 : ∀ m ∈ List.range guests.length,
      (((List.range guests.length).filter (fun i => v.x i m)).map (fun i => v.wait i)).sum =
      ((List.range guests.length).map (fun i => if v.x i m then v.wait i else 0)).sum :=
    fun m _ => sum_filter_ite _ _ _
  rw [List.map_congr_left h4, list_sum_comm]
  have h5 : ∀ i ∈ List.range guests.length,
      ((List.range guests.length).map (fun m => if v.x i m then v.wait i else 0)).sum =
      v.wait i := by
    intro i hi
    have hpt : ∀ m ∈ List.range guests.length,
        (if v.x i m then v.wait i else 0) = v.wait i * b2i (v.x i m) := by
      intro m _
      cases hx : v.x i m <;> simp [b2i]
    rw [List.map_congr_left hpt, List.sum_map_mul_left,
      hSat.partition i (List.mem_range.mp hi), mul_one]
  rw [List.map_congr_left h5]
  exact hSat.totalWaitEq.symm

/-- Claim C6: in a non-empty `"ok"` result the reported `total_wait_min`
equals the sum of the listed per-guest `wait_min`s over all trips, and
`num_trips_used` is the length of the trips list. -/
theorem C6_total_wait_consistency (guests : List Guest) (params : SolveParams)
    (oracle : SolverOutcome) (r : SolveResult) (L : List TripOut)
    (hne : guests ≠ [])
    (hOracle : ∀ v, oracle = SolverOutcome.success v → SatisfiesModel guests params v)
    (h : solve_pickups_multitrip guests params oracle = Except.ok r)
    (hL : r.trips = some L) :
    r.num_trips_used = some L.length ∧
    r.total_wait_min =
      some ((L.map (fun t => ((t.guests.map (fun g => g.wait_min)).sum))).sum) := by
  rcases solve_ok_cases h with ⟨hnil, -⟩ | ⟨-, -, rfl⟩ | ⟨-, v, hv, rfl⟩
  · exact absurd hnil hne
  · simp [infeasibleResult] at hL
  · have hSat := hOracle v hv
    have hLo : L = tripsOut guests params v := by simpa [okResult] using hL.symm
    subst hLo
    exact ⟨rfl, congrArg some (totalWait_eq_sum_trips hSat).symm⟩

theorem C6_total_wait_consistency_witness :
    (okResult exG exP exV1).num_trips_used = some (tripsOut exG exP exV1).length ∧
    (okResult exG exP exV1).total_wait_min =
      some (((tripsOut exG exP exV1).map
        (fun t => ((t.guests.map (fun g => g.wait_min)).sum))).sum) :=
  C6_total_wait_consistency exG exP (SolverOutcome.success exV1)
    (okResult exG exP exV1) (tripsOut exG exP exV1) (by decide)
    (fun v hv => by cases hv; exact exSat1) rfl rfl

/-! ### Reordering the guest list -/

/-- The guest list reindexed through `σ`: entry `j` is `guests[σ j]`. -/
def permListN (guests : List Guest) (σ : Nat → Nat) : List Guest :=
  (List.range guests.length).map (fun j => guests.getD (σ j) defaultGuest)

/-- The valuation transported along a reindexing of the guests: guest-indexed
variables compose with `σ`, slot- and vehicle-indexed variables are kept. -/
def permV (σ : Nat → Nat) (v : Valuation) : Valuation :=
  { x := fun i m => v.x (σ i) m
    used := v.used
    dep := v.dep
    minArr := v.minArr
    maxArr := v.maxArr
    z := v.z
    vmin := fun i m => v.vmin (σ i) m
    vmax := fun i m => v.vmax (σ i) m
    dummyMin := v.dummyMin
    dummyMax := v.dummyMax
    endv := v.endv
    depGuest := fun i => v.depGuest (σ i)
    wait := fun i => v.wait (σ i)
    totalWait := v.totalWait }

theorem length_permListN (guests : List Guest) (σ : Nat → Nat) :
    (permListN guests σ).length = guests.length := by
  simp [permListN]

theorem getD_permListN (guests : List Guest) (σ : Nat → Nat) {i : Nat}
    (hi : i < guests.length) (d : Guest) :
    (permListN guests σ).getD i d = guests.getD (σ i) defaultGuest := by
  unfold permListN
  exact getD_map_range _ _ _ _ hi

theorem arrv_permListN (guests : List Guest) (σ : Nat → Nat) {i : Nat}
    (hi : i < guests.length) :
    arrv (permListN guests σ) i = arrv guests (σ i) := by
  unfold arrv
  rw [getD_permListN guests σ hi]

theorem map_range_sigma_perm {n : Nat} {σ τ : Nat → Nat}
    (hσ : ∀ i < n, σ i < n ∧ τ (σ i) = i)
    (hτ : ∀ i < n, τ i < n ∧ σ (τ i) = i) :
    ((List.range n).map σ).Perm (List.range n) := by
  have hnd : ((List.range n).map σ).Nodup := by
    refine List.Nodup.map_on ?_ (List.nodup_range n)
    intro x hx y hy hxy
    have hx' := List.mem_range.mp hx
    have hy' := List.mem_range.mp hy
    have := congrArg τ hxy
    rw [(hσ x hx').2, (hσ y hy').2] at this
    exact this
  refine (List.perm_ext_iff_of_nodup hnd (List.nodup_range n)).mpr ?_
  intro a
  constructor
  · intro ha
    rcases List.mem_map.mp ha with ⟨i, hi, rfl⟩
    exact List.mem_range.mpr (hσ i (List.mem_range.mp hi)).1
  · intro ha
    have ha' := List.mem_range.mp ha
    refine List.mem_map.mpr ⟨τ a, List.mem_range.mpr (hτ a ha').1, (hτ a ha').2⟩

theorem sum_sigma {n : Nat} {σ τ : Nat → Nat}
    (hσ : ∀ i < n, σ i < n ∧ τ (σ i) = i)
    (hτ : ∀ i < n, τ i < n ∧ σ (τ i) = i) (f : Nat → Int) :
    ((List.range n).map (fun i => f (σ i))).sum = ((List.range n).map f).sum := by
  have h1 : ((List.range n).map (fun i => f (σ i))) = ((List.range n).map σ).map f := by
    rw [List.map_map]
    rfl
  rw [h1]
  exact ((map_range_sigma_perm hσ hτ).map f).sum_eq

theorem foldr_min_sigma {n : Nat} {σ τ : Nat → Nat}
    (hσ : ∀ i < n, σ i < n ∧ τ (σ i) = i)
    (hτ : ∀ i < n, τ i < n ∧ σ (τ i) = i) (g : Nat → Int) (d : Int) :
    ((List.range n).map (fun i => g (σ i))).foldr min d =
      ((List.range n).map g).foldr min d := by
  have h1 : ((List.range n).map (fun i => g (σ i))) = ((List.range n).map σ).map g := by
    rw [List.map_map]
    rfl
  rw [h1]
  exact foldr_perm_of_comm (fun a b acc => min_left_comm a b acc)
    ((map_range_sigma_perm hσ hτ).map g) d

theorem foldr_max_sigma {n : Nat} {σ τ : Nat → Nat}
    (hσ : ∀ i < n, σ i < n ∧ τ (σ i) = i)
    (hτ : ∀ i < n, τ i < n ∧ σ (τ i) = i) (g : Nat → Int) (d : Int) :
    ((List.range n).map (fun i => g (σ i))).foldr max d =
      ((List.range n).map g).foldr max d := by
  have h1 : ((List.range n).map (fun i => g (σ i))) = ((List.range n).map σ).map g := by
    rw [List.map_map]
    rfl
  rw [h1]
  exact foldr_perm_of_comm (fun a b acc => max_left_comm a b acc)
    ((map_range_sigma_perm hσ hτ).map g) d

theorem permListN_perm {guests : List Guest} {σ τ : Nat → Nat}
    (hσ : ∀ i < guests.length, σ i < guests.length ∧ τ (σ i) = i)
    (hτ : ∀ i < guests.length, τ i < guests.length ∧ σ (τ i) = i) :
    (permListN guests σ).Perm guests := by
  unfold permListN
  have h1 : (List.range guests.length).map (fun j => guests.getD (σ j) defaultGuest) =
      ((List.range guests.length).map σ).map (fun j => guests.getD j defaultGuest) := by
    rw [List.map_map]
    rfl
  rw [h1]
  have h2 := (map_range_sigma_perm hσ hτ).map (fun j => guests.getD j defaultGuest)
  rw [map_range_getD guests defaultGuest] at h2
  exact h2

theorem getLast?_eq_of_all_eq {l : List Nat} {i : Nat}
    (hall : ∀ j ∈ l, j = i) (hmem : i ∈ l) : l.getLast? = some i := by
  induction l with
  | nil => cases hmem
  | cons a t ih =>
    cases t with
    | nil =>
      have ha : a = i := hall a (by simp)
      simp [ha]
    | cons b t2 =>
      have hmem' : i ∈ b :: t2 := by
        have hb : b = i := hall b (by simp)
        rw [← hb]
        simp
      have ht := ih (fun j hj => hall j (by simp [hj])) hmem'
      simpa [List.getLast?_cons_cons] using ht

/-- Inversion of a successful `id_to_i` lookup. -/
theorem id_to_i_some {guests : List Guest} {gid : String} {i : Nat}
    (h : id_to_i guests gid = some i) :
    i < guests.length ∧ (guests.getD i defaultGuest).guest_id = gid := by
  unfold id_to_i at h
  have hx := List.mem_getLast?_eq_getLast (show i ∈ _ from h)
  rcases hx with ⟨hne, hi⟩
  have hmem : i ∈ (List.range guests.length).filter
      (fun j => (guests.getD j defaultGuest).guest_id == gid) := by
    rw [hi]
    exact List.getLast_mem hne
  rcases List.mem_filter.mp hmem with ⟨hr, hb⟩
  exact ⟨List.mem_range.mp hr, by simpa using hb⟩

/-- With pairwise distinct guest ids, `id_to_i` finds exactly the index
holding the id. -/
theorem id_to_i_of {guests : List Guest} {gid : String} {i : Nat}
    (hND : (guests.map (fun g => g.guest_id)).Nodup)
    (hi : i < guests.length) (hgid : (guests.getD i defaultGuest).guest_id = gid) :
    id_to_i guests gid = some i := by
  unfold id_to_i
  refine getLast?_eq_of_all_eq ?_ ?_
  · intro j hj
    rcases List.mem_filter.mp hj with ⟨hjr, hjb⟩
    have hj' : j < guests.length := List.mem_range.mp hjr
    have hjg : (guests.getD j defaultGuest).guest_id = gid := by simpa using hjb
    have hmapj : j < (guests.map (fun g => g.guest_id)).length := by simpa using hj'
    have hmapi : i < (guests.map (fun g => g.guest_id)).length := by simpa using hi
    have heq : (guests.map (fun g => g.guest_id))[j] =
        (guests.map (fun g => g.guest_id))[i] := by
      rw [List.getElem_map, List.getElem_map]
      rw [← List.getD_eq_getElem guests defaultGuest hj',
        ← List.getD_eq_getElem guests defaultGuest hi]
      rw [hjg, hgid]
    exact hND.getElem_inj_iff.mp heq
  · exact List.mem_filter.mpr ⟨List.mem_range.mpr hi, by simpa using hgid⟩

/-- Transport of an `id_to_i` lookup along a reindexing. -/
theorem id_to_i_permListN {guests : List Guest} {σ τ : Nat → Nat}
    (hσ : ∀ i < guests.length, σ i < guests.length ∧ τ (σ i) = i)
    (_hτ : ∀ i < guests.length, τ i < guests.length ∧ σ (τ i) = i)
    (hND : (guests.map (fun g => g.guest_id)).Nodup)
    {gid : String} {j : Nat}
    (h : id_to_i (permListN guests σ) gid = some j) :
    j < guests.length ∧ id_to_i guests gid = some (σ j) := by
  rcases id_to_i_some h with ⟨hj, hgid⟩
  rw [length_permListN] at hj
  rw [getD_permListN guests σ hj] at hgid
  exact ⟨hj, id_to_i_of hND (hσ j hj).1 hgid⟩

/-- Reindexing the guest list through a bijection of `0..n-1` maps
satisfying assignments to satisfying assignments: every clause of the model
is either guest-free or transports along `σ`. -/
theorem sat_perm {guests : List Guest} {params : SolveParams} {v : Valuation}
    {σ τ : Nat → Nat}
    (hσ : ∀ i < guests.length, σ i < guests.length ∧ τ (σ i) = i)
    (hτ : ∀ i < guests.length, τ i < guests.length ∧ σ (τ i) = i)
    (hND : (guests.map (fun g => g.guest_id)).Nodup)
    (hSat : SatisfiesModel guests params v) :
    SatisfiesModel (permListN guests σ) params (permV σ v) := by
  have hperm := permListN_perm hσ hτ
  have hlen := length_permListN guests σ
  have hminA : minA (permListN guests σ) = minA guests := minA_perm hperm
  have hmaxA : maxA (permListN guests σ) = maxA guests := maxA_perm hperm
  have hhor : horizonOf (permListN guests σ) params = horizonOf guests params := by
    unfold horizonOf
    cases hth : params.time_horizon_min with
    | none => simp [hmaxA]
    | some h => rfl
  have hbig : bigPos (permListN guests σ) params = bigPos guests params := by
    unfold bigPos
    rw [hhor]
  have hload : ∀ m, loadOf (permListN guests σ) (permV σ v) m = loadOf guests v m := by
    intro m
    unfold loadOf
    rw [hlen]
    exact sum_sigma hσ hτ (fun i => b2i (v.x i m))
  have hmin : ∀ m, maskedMin (permListN guests σ) (permV σ v) m = maskedMin guests v m := by
    intro m
    unfold maskedMin
    rw [hlen]
    exact foldr_min_sigma hσ hτ (fun i => v.vmin i m) (v.dummyMin m)
  have hmax : ∀ m, maskedMax (permListN guests σ) (permV σ v) m = maskedMax guests v m := by
    intro m
    unfold maskedMax
    rw [hlen]
    exact foldr_max_sigma hσ hτ (fun i => v.vmax i m) (v.dummyMax m)
  exact
  { depDom := by
      intro m hm
      rw [hlen] at hm
      rw [hminA, hhor]
      exact hSat.depDom m hm
    minArrDom := by
      intro m hm
      rw [hlen] at hm
      rw [hminA, hbig]
      exact hSat.minArrDom m hm
    maxArrDom := by
      intro m hm
      rw [hlen] at hm
      rw [hmaxA]
      exact hSat.maxArrDom m hm
    vminDom := by
      intro m hm i hi
      rw [hlen] at hm hi
      rw [hminA, hbig]
      exact hSat.vminDom m hm (σ i) (hσ i hi).1
    vmaxDom := by
      intro m hm i hi
      rw [hlen] at hm hi
      rw [hmaxA]
      exact hSat.vmaxDom m hm (σ i) (hσ i hi).1
    dummyMinDom := by
      intro m hm
      rw [hlen] at hm
      rw [hminA, hbig]
      exact hSat.dummyMinDom m hm
    dummyMaxDom := by
      intro m hm
      rw [hlen] at hm
      rw [hmaxA]
      exact hSat.dummyMaxDom m hm
    endDom := by
      intro m hm k hk
      rw [hlen] at hm
      rw [hminA, hhor]
      exact hSat.endDom m hm k hk
    depGuestDom := by
      intro i hi
      rw [hlen] at hi
      rw [hminA, hhor]
      exact hSat.depGuestDom (σ i) (hσ i hi).1
    waitDom := by
      intro i hi
      rw [hlen] at hi
      rw [hhor, hminA]
      exact hSat.waitDom (σ i) (hσ i hi).1
    totalWaitDom := hSat.totalWaitDom
    partition := by
      intro i hi
      rw [hlen] at hi
      rw [hlen]
      exact hSat.partition (σ i) (hσ i hi).1
    usedImp := by
      intro m hm i hi hx
      rw [hlen] at hm hi
      exact hSat.usedImp m hm (σ i) (hσ i hi).1 hx
    loadGe := by
      intro m hm hu
      rw [hlen] at hm
      rw [hload m]
      exact hSat.loadGe m hm hu
    loadEq0 := by
      intro m hm hu
      rw [hlen] at hm
      rw [hload m]
      exact hSat.loadEq0 m hm hu
    zSum := by
      intro m hm
      rw [hlen] at hm
      exact hSat.zSum m hm
    capacity := by
      intro m hm
      rw [hlen] at hm
      rw [hload m]
      exact hSat.capacity m hm
    vminLink := by
      intro m hm i hi
      rw [hlen] at hm hi
      constructor
      · intro hx
        rw [arrv_permListN guests σ hi]
        exact (hSat.vminLink m hm (σ i) (hσ i hi).1).1 hx
      · intro hx
        rw [hbig]
        exact (hSat.vminLink m hm (σ i) (hσ i hi).1).2 hx
    vmaxLink := by
      intro m hm i hi
      rw [hlen] at hm hi
      constructor
      · intro hx
        rw [arrv_permListN guests σ hi]
        exact (hSat.vmaxLink m hm (σ i) (hσ i hi).1).1 hx
      · intro hx
        exact (hSat.vmaxLink m hm (σ i) (hσ i hi).1).2 hx
    dummyLink := by
      intro m hm
      rw [hlen] at hm
      constructor
      · intro hu
        rw [hminA]
        exact (hSat.dummyLink m hm).1 hu
      · intro hu
        rw [hbig]
        exact (hSat.dummyLink m hm).2 hu
    minArrEq := by
      intro m hm
      rw [hlen] at hm
      rw [hmin m]
      exact hSat.minArrEq m hm
    maxArrEq := by
      intro m hm
      rw [hlen] at hm
      rw [hmax m]
      exact hSat.maxArrEq m hm
    depEq := by
      intro m hm
      rw [hlen] at hm
      exact hSat.depEq m hm
    waitSpread := by
      intro m hm hu
      rw [hlen] at hm
      exact hSat.waitSpread m hm hu
    incompat := by
      intro p hp i1 i2 h1 h2 m hm
      rw [hlen] at hm
      rcases id_to_i_permListN hσ hτ hND h1 with ⟨hj1, h1'⟩
      rcases id_to_i_permListN hσ hτ hND h2 with ⟨hj2, h2'⟩
      exact hSat.incompat p hp (σ i1) (σ i2) h1' h2' m hm
    together := by
      intro r hr ia ib ha hb m hm
      rw [hlen] at hm
      rcases id_to_i_permListN hσ hτ hND ha with ⟨hja, ha'⟩
      rcases id_to_i_permListN hσ hτ hND hb with ⟨hjb, hb'⟩
      exact hSat.together r hr (σ ia) (σ ib) ha' hb' m hm
    endLink := by
      intro m hm k hk
      rw [hlen] at hm
      exact hSat.endLink m hm k hk
    noOverlap := by
      intro k hk m1 hm1 m2 hm2 hne hz1 hz2
      rw [hlen] at hm1 hm2
      exact hSat.noOverlap k hk m1 hm1 m2 hm2 hne hz1 hz2
    depGuestLink := by
      intro i hi m hm hx
      rw [hlen] at hi hm
      exact hSat.depGuestLink (σ i) (hσ i hi).1 m hm hx
    waitLink := by
      intro i hi
      rw [hlen] at hi
      rw [arrv_permListN guests σ hi]
      exact hSat.waitLink (σ i) (hσ i hi).1
    totalWaitEq := by
      rw [hlen]
      exact hSat.totalWaitEq.trans (sum_sigma hσ hτ (fun i => v.wait i)).symm }

theorem objective_permV (guests : List Guest) (σ : Nat → Nat) (v : Valuation) :
    objective (permListN guests σ) (permV σ v) = objective guests v := by
  unfold objective
  rw [length_permListN]
  rfl

theorem permListN_inv {guests : List Guest} {σ τ : Nat → Nat}
    (hτ : ∀ i < guests.length, τ i < guests.length ∧ σ (τ i) = i) :
    permListN (permListN guests σ) τ = guests := by
  show (List.range (permListN guests σ).length).map
    (fun j => (permListN guests σ).getD (τ j) defaultGuest) = guests
  rw [length_permListN]
  have hpt : ∀ j ∈ List.range guests.length,
      (permListN guests σ).getD (τ j) defaultGuest = guests.getD j defaultGuest := by
    intro j hj
    have hj' := List.mem_range.mp hj
    rw [getD_permListN guests σ (hτ j hj').1, (hτ j hj').2]
  rw [List.map_congr_left hpt]
  exact map_range_getD guests defaultGuest

theorem isOptimal_perm {guests : List Guest} {params : SolveParams} {v : Valuation}
    {σ τ : Nat → Nat}
    (hσ : ∀ i < guests.length, σ i < guests.length ∧ τ (σ i) = i)
    (hτ : ∀ i < guests.length, τ i < guests.length ∧ σ (τ i) = i)
    (hND : (guests.map (fun g => g.guest_id)).Nodup)
    (hOpt : IsOptimal guests params v) :
    IsOptimal (permListN guests σ) params (permV σ v) := by
  obtain ⟨hSat, hmin⟩ := hOpt
  refine ⟨sat_perm hσ hτ hND hSat, ?_⟩
  intro w hw
  have hσ' : ∀ i < (permListN guests σ).length,
      τ i < (permListN guests σ).length ∧ σ (τ i) = i := by
    intro i hi
    rw [length_permListN] at hi ⊢
    exact hτ i hi
  have hτ' : ∀ i < (permListN guests σ).length,
      σ i < (permListN guests σ).length ∧ τ (σ i) = i := by
    intro i hi
    rw [length_permListN] at hi ⊢
    exact hσ i hi
  have hND' : ((permListN guests σ).map (fun g => g.guest_id)).Nodup :=
    ((permListN_perm hσ hτ).map _).nodup_iff.mpr hND
  have hw' := sat_perm hσ' hτ' hND' hw
  rw [permListN_inv hτ] at hw'
  have h1 := hmin (permV τ w) hw'
  have h2 : objective guests (permV τ w) = objective (permListN guests σ) w := by
    unfold objective
    rw [length_permListN]
    rfl
  rw [objective_permV guests σ v]
  rw [← h2]
  exact h1

theorem tripGuestIds_perm {guests : List Guest} {σ τ : Nat → Nat}
    (hσ : ∀ i < guests.length, σ i < guests.length ∧ τ (σ i) = i)
    (hτ : ∀ i < guests.length, τ i < guests.length ∧ σ (τ i) = i)
    (v : Valuation) (m : Nat) (gid : String) :
    gid ∈ tripGuestIds (permListN guests σ) (permV σ v) m ↔
      gid ∈ tripGuestIds guests v m := by
  unfold tripGuestIds
  rw [length_permListN]
  constructor
  · intro h
    rcases List.mem_map.mp h with ⟨i, hi, hgid⟩
    rcases List.mem_filter.mp hi with ⟨hir, hx⟩
    have hi' := List.mem_range.mp hir
    rw [getD_permListN guests σ hi'] at hgid
    exact List.mem_map.mpr ⟨σ i,
      List.mem_filter.mpr ⟨List.mem_range.mpr (hσ i hi').1, hx⟩, hgid⟩
  · intro h
    rcases List.mem_map.mp h with ⟨i, hi, hgid⟩
    rcases List.mem_filter.mp hi with ⟨hir, hx⟩
    have hi' := List.mem_range.mp hir
    refine List.mem_map.mpr ⟨τ i,
      List.mem_filter.mpr ⟨List.mem_range.mpr (hτ i hi').1, ?_⟩, ?_⟩
    · show v.x (σ (τ i)) m = true
      rw [(hτ i hi').2]
      exact hx
    · rw [getD_permListN guests σ (hτ i hi').1, (hτ i hi').2]
      exact hgid

/-- Claim C8 (amended): reindexing the guest list through any permutation
(with pairwise distinct guest ids) maps each satisfying solver assignment to
a satisfying assignment of the permuted instance with the same total wait,
the same objective value, and the same partition of guest ids into trip
slots, and maps optimal assignments to optimal assignments.  (The original
claim — re-solving the permuted list yields identical `total_wait_min` and
identical partition — fails because an instance can admit several optimal
assignments that differ in both; see the counterexample.) -/
theorem C8_perm_objective (guests : List Guest) (params : SolveParams)
    (v : Valuation) (σ τ : Nat → Nat)
    (hσ : ∀ i < guests.length, σ i < guests.length ∧ τ (σ i) = i)
    (hτ : ∀ i < guests.length, τ i < guests.length ∧ σ (τ i) = i)
    (hND : (guests.map (fun g => g.guest_id)).Nodup)
    (hSat : SatisfiesModel guests params v) :
    SatisfiesModel (permListN guests σ) params (permV σ v) ∧
    (permV σ v).totalWait = v.totalWait ∧
    objective (permListN guests σ) (permV σ v) = objective guests v ∧
    (∀ m gid, gid ∈ tripGuestIds (permListN guests σ) (permV σ v) m ↔
      gid ∈ tripGuestIds guests v m) ∧
    (IsOptimal guests params v → IsOptimal (permListN guests σ) params (permV σ v)) :=
  ⟨sat_perm hσ hτ hND hSat, rfl, objective_permV guests σ v,
   fun m gid => tripGuestIds_perm hσ hτ v m gid,
   fun hOpt => isOptimal_perm hσ hτ hND hOpt⟩

/-- The transposition of indices 0 and 1. -/
def swapFn : Nat → Nat := fun i => if i = 0 then 1 else if i = 1 then 0 else i

theorem C8_perm_objective_witness :
    SatisfiesModel (permListN exG swapFn) exP (permV swapFn exV1) ∧
    (permV swapFn exV1).totalWait = exV1.totalWait :=
  ⟨(C8_perm_objective exG exP exV1 swapFn swapFn (by decide) (by decide)
      (by decide) exSat1).1,
   (C8_perm_objective exG exP exV1 swapFn swapFn (by decide) (by decide)
      (by decide) exSat1).2.1⟩

/-! ### A two-guest instance with two optimal solutions -/

theorem split_bound (g0 g1 : Guest) (w : Valuation)
    (hw : SatisfiesModel [g0, g1] exP w)
    {m0 m1 : Nat} (hm0 : m0 < 2) (hm1 : m1 < 2) (hne : m0 ≠ m1)
    (hx0 : w.x 0 m0 = true) (hx1 : w.x 1 m1 = true) :
    2 ≤ objective [g0, g1] w := by
  have hu0 : w.used m0 = true := hw.usedImp m0 hm0 0 (by simp) hx0
  have hu1 : w.used m1 = true := hw.usedImp m1 hm1 1 (by simp) hx1
  have htw : 0 ≤ w.totalWait := hw.totalWaitDom.1
  have hobj : objective [g0, g1] w =
      w.totalWait + (b2i (w.used 0) + (b2i (w.used 1) + 0)) := rfl
  have hcases : (m0 = 0 ∧ m1 = 1) ∨ (m0 = 1 ∧ m1 = 0) := by omega
  rcases hcases with ⟨h0, h1⟩ | ⟨h0, h1⟩
  · subst h0; subst h1
    rw [hobj, hu0, hu1]
    simp [b2i]
    linarith
  · subst h0; subst h1
    rw [hobj, hu1, hu0]
    simp [b2i]
    linarith

theorem same_bound (g0 g1 : Guest) (w : Valuation)
    (harr : (g0.arrival_min = 0 ∧ g1.arrival_min = 1) ∨
            (g0.arrival_min = 1 ∧ g1.arrival_min = 0))
    (hw : SatisfiesModel [g0, g1] exP w)
    {m : Nat} (hm : m < 2)
    (hx0 : w.x 0 m = true) (hx1 : w.x 1 m = true) :
    2 ≤ objective [g0, g1] w := by
  have hu : w.used m = true := hw.usedImp m hm 0 (by simp) hx0
  have hdg0 : w.depGuest 0 = w.dep m := hw.depGuestLink 0 (by simp) m hm hx0
  have hdg1 : w.depGuest 1 = w.dep m := hw.depGuestLink 1 (by simp) m hm hx1
  have hdep : w.dep m = w.maxArr m := hw.depEq m hm
  have hmx : w.maxArr m = maskedMax [g0, g1] w m := hw.maxArrEq m hm
  have hmask : maskedMax [g0, g1] w m =
      max (w.vmax 0 m) (max (w.vmax 1 m) (w.dummyMax m)) := rfl
  have hv0 : w.vmax 0 m = g0.arrival_min := (hw.vmaxLink m hm 0 (by simp)).1 hx0
  have hv1 : w.vmax 1 m = g1.arrival_min := (hw.vmaxLink m hm 1 (by simp)).1 hx1
  have hge0 : g0.arrival_min ≤ w.dep m := by
    rw [hdep, hmx, hmask, ← hv0]
    exact le_max_left _ _
  have hge1 : g1.arrival_min ≤ w.dep m := by
    rw [hdep, hmx, hmask, ← hv1]
    exact le_trans (le_max_left _ _) (le_max_right _ _)
  have hw0 : w.wait 0 = w.depGuest 0 - g0.arrival_min := hw.waitLink 0 (by simp)
  have hw1 : w.wait 1 = w.depGuest 1 - g1.arrival_min := hw.waitLink 1 (by simp)
  have htw : w.totalWait = w.wait 0 + (w.wait 1 + 0) := hw.totalWaitEq
  have hobj : objective [g0, g1] w =
      w.totalWait + (b2i (w.used 0) + (b2i (w.used 1) + 0)) := rfl
  have hb0 : 0 ≤ b2i (w.used 0) := b2i_nonneg _
  have hb1 : 0 ≤ b2i (w.used 1) := b2i_nonneg _
  have hm01 : m = 0 ∨ m = 1 := by omega
  rcases harr with ⟨ha0, ha1⟩ | ⟨ha0, ha1⟩ <;> rcases hm01 with rfl | rfl <;> rw [hobj] <;>
    first
      | (have hbu : b2i (w.used 0) = 1 := by rw [hu]; rfl
         linarith)
      | (have hbu : b2i (w.used 1) = 1 := by rw [hu]; rfl
         linarith)

/-- Every satisfying assignment of a two-guest instance with arrivals
`{0, 1}` under `exP` has objective at least 2. -/
theorem two_guest_lower_bound (g0 g1 : Guest)
    (harr : (g0.arrival_min = 0 ∧ g1.arrival_min = 1) ∨
            (g0.arrival_min = 1 ∧ g1.arrival_min = 0))
    (w : Valuation) (hw : SatisfiesModel [g0, g1] exP w) :
    2 ≤ objective [g0, g1] w := by
  have hp0 : b2i (w.x 0 0) + (b2i (w.x 0 1) + 0) = 1 := hw.partition 0 (by simp)
  have hp1 : b2i (w.x 1 0) + (b2i (w.x 1 1) + 0) = 1 := hw.partition 1 (by simp)
  by_cases hx00 : w.x 0 0 = true
  · by_cases hx10 : w.x 1 0 = true
    · exact same_bound g0 g1 w harr hw (by omega) hx00 hx10
    · have hf : w.x 1 0 = false := by simpa using hx10
      have hx11 : w.x 1 1 = true := by
        rw [hf] at hp1
        cases hx11c : w.x 1 1
        · rw [hx11c] at hp1
          simp [b2i] at hp1
        · rfl
      exact split_bound g0 g1 w hw (by omega) (by omega) (by omega) hx00 hx11
  · have hx00f : w.x 0 0 = false := by simpa using hx00
    have hx01 : w.x 0 1 = true := by
      rw [hx00f] at hp0
      cases hx01c : w.x 0 1
      · rw [hx01c] at hp0
        simp [b2i] at hp0
      · rfl
    by_cases hx11 : w.x 1 1 = true
    · exact same_bound g0 g1 w harr hw (by omega) hx01 hx11
    · have hx11f : w.x 1 1 = false := by simpa using hx11
      have hx10 : w.x 1 0 = true := by
        rw [hx11f] at hp1
        cases hx10c : w.x 1 0
        · rw [hx10c] at hp1
          simp [b2i] at hp1
        · rfl
      exact split_bound g0 g1 w hw (by omega) (by omega) (by omega) hx01 hx10

theorem exOpt1 : IsOptimal exG exP exV1 := by
  refine ⟨exSat1, ?_⟩
  intro w hw
  have h2 := two_guest_lower_bound exGA exGB (Or.inl ⟨rfl, rfl⟩) w hw
  have h1 : objective exG exV1 = 2 := by decide
  rw [h1]
  exact h2

theorem exOpt2 : IsOptimal exG2 exP exV2 := by
  refine ⟨exSat2, ?_⟩
  intro w hw
  have h2 := two_guest_lower_bound exGB exGA (Or.inr ⟨rfl, rfl⟩) w hw
  have h1 : objective exG2 exV2 = 2 := by decide
  rw [h1]
  exact h2

/-- Counterexample to claim C8 as stated: `exG2` is a permutation (the swap)
of `exG`, both `exV1` and `exV2` are optimal solver assignments for their
instances, yet the two runs report `total_wait_min = 1` and
`total_wait_min = 0` and partition the guests differently ("a" and "b"
share a trip in one run and not in the other).  Re-solving a permuted list
therefore need not reproduce the total wait or the partition. -/
theorem C8_perm_counterexample :
    exG2.Perm exG ∧
    IsOptimal exG exP exV1 ∧ IsOptimal exG2 exP exV2 ∧
    resTotalWait (solve_pickups_multitrip exG exP (SolverOutcome.success exV1)) = some 1 ∧
    resTotalWait (solve_pickups_multitrip exG2 exP (SolverOutcome.success exV2)) = some 0 ∧
    resSameTrip (solve_pickups_multitrip exG exP (SolverOutcome.success exV1)) "a" "b" = true ∧
    resSameTrip (solve_pickups_multitrip exG2 exP (SolverOutcome.success exV2)) "a" "b" = false :=
  ⟨by decide, exOpt1, exOpt2, by decide, by decide, by decide, by decide⟩

end WeddingShuttle
